import Mathlib

/-!
Verification of the Snowpipe streaming ingestion client
(`SnowflakeServiceClient` / `SnowflakeIngestionChannel`).

The Go source is shallowly embedded: every fallible collaborator call
(schema transform, parquet writer, metadata parser, crypto, stage uploader,
control-plane transport) is represented by its outcome, supplied in an
environment record, and the orchestration logic of `InsertRows`,
`WaitUntilCommitted` and `ChannelStatus` is translated statement by
statement.  Sequence counters and the shared request-id counter are
explicit state threaded through each call.
-/

namespace Streaming

/-! ## Decimal rendering

The Go code renders numbers into request ids and blob paths with
`fmt.Sprintf("%s_%d", ...)`.  We model the `%d` directive with an
executable decimal renderer, `decDigits`, defined with explicit fuel so
that it reduces by kernel computation. -/
/-- One decimal digit as a character; inputs ten or larger only occur on
unreachable code paths of the renderer. -/
def decDigitChar (d : Nat) : Char :=
  if d = 0 then '0' else if d = 1 then '1' else if d = 2 then '2'
  else if d = 3 then '3' else if d = 4 then '4' else if d = 5 then '5'
  else if d = 6 then '6' else if d = 7 then '7' else if d = 8 then '8'
  else '9'

/-- Fuel-driven decimal renderer accumulating characters, most significant
digit first.  Fuel larger than the number suffices. -/
def decDigitsAux : Nat → Nat → List Char → List Char
  | 0, _, acc => acc
  | fuel + 1, n, acc =>
    if n < 10 then decDigitChar n :: acc
    else decDigitsAux fuel (n / 10) (decDigitChar (n % 10) :: acc)

/-- Decimal rendering of a natural number, as produced by the `%d` format
directive. -/
def decDigits (n : Nat) : List Char := decDigitsAux (n + 1) n []

/-! ## Data model

Mirrors the `streaming` package.  Strings, integers and lists of bytes
stand for Go strings, `int64`/`int` values and byte slices.  The shared
`requestIDCounter` (an `atomic.Int64` that only ever receives `Add(1)`) is
modelled as a `Nat` holding the last issued value. -/
/-- The fixed status code the control plane uses for success; every
response status is compared against it with plain equality.  Modelled from
the spec: the numeric constant lives in the REST layer, which is not under
src/; only equality with it matters (spec section 6). -/
def responseSuccess : Int := 0

/-- Per-channel opening parameters (`ChannelOptions`).  The Go `ID` field
is an `int16`; it is modelled as a natural number. -/
structure ChannelOptions where
  id : Nat
  name : String
  databaseName : String
  schemaName : String
  tableName : String
  deriving Repr, DecidableEq

/-- The per-channel static data a `SnowflakeIngestionChannel` carries
besides its mutable counters: its options, the owning client's prefix and
role, the connector version and the channel encryption material. -/
structure ChannelConfig where
  id : Nat
  name : String
  databaseName : String
  schemaName : String
  tableName : String
  role : String
  clientPfx : String
  version : String
  encryptionKeyID : Int
  encryptionKey : String
  deriving Repr, DecidableEq

/-- The mutable state of a `SnowflakeIngestionChannel` together with the
client-shared request-id counter: `clientSequencer` and `rowSequencer`
(both `int64` in Go), the last value issued by the shared
`requestIDCounter`, and the channel's `fileMetadata` map. -/
structure ChannelState where
  clientSequencer : Int
  rowSequencer : Int
  counter : Nat
  fileMetadata : List (String × String)
  deriving Repr, DecidableEq

/-- Go map assignment `m[k] = v`: replaces any previous binding of `k`. -/
def metaSet (m : List (String × String)) (k v : String) : List (String × String) :=
  (k, v) :: m.filter (fun p => p.1 ≠ k)

/-- Request id `fmt.Sprintf("%s_%d", c.clientPrefix, rid)`. -/
def formatRid (p : String) (n : Nat) : String :=
  ⟨p.data ++ '_' :: decDigits n⟩

/-- Modelled from the spec: `generateBlobPath` itself is not under src/
(only its call site in `InsertRows` is).  Per spec section 4.3 step 2 the
destination path combines the client prefix, the channel-derived thread id
(channel id shifted into the high bits, ORed with a 48-bit random value)
and the per-call counter drawn from the shared request-id counter. -/
def generateBlobPath (p : String) (threadID counter : Nat) : String :=
  ⟨p.data ++ '_' :: (decDigits threadID ++ '_' :: decDigits counter)⟩

/-- Go `path.Base`: the last slash-separated component of a path. -/
def pathBase (s : String) : String :=
  ⟨(s.data.reverse.takeWhile (fun c => c ≠ '/')).reverse⟩

/-! ## Outbound control-plane requests

Field-for-field images of the Go struct literals built at the call sites
in `OpenChannel`, `DropChannel`, `ChannelStatus`, `WaitUntilCommitted` and
`InsertRows`.  Note that the batch channel-status request built at those
call sites carries no request identifier field. -/
structure OpenChannelRequest where
  requestID : String
  role : String
  channel : String
  database : String
  schema : String
  table : String
  writeMode : String
  deriving Repr, DecidableEq

structure DropChannelRequest where
  requestID : String
  role : String
  channel : String
  table : String
  database : String
  schema : String
  deriving Repr, DecidableEq

/-- One entry of a batch channel-status request; `clientSequencer` is the
optional pointer field, set only by `WaitUntilCommitted`. -/
structure ChannelStatusRequest where
  name : String
  table : String
  database : String
  schema : String
  clientSequencer : Option Int
  deriving Repr, DecidableEq

structure BatchChannelStatusRequest where
  role : String
  channels : List ChannelStatusRequest
  deriving Repr, DecidableEq

structure BlobStats where
  flushStartMs : Int
  buildDurationMs : Int
  uploadDurationMs : Int
  deriving Repr, DecidableEq

structure EpInfo where
  rows : Int
  columns : List (String × Int)
  deriving Repr, DecidableEq

structure ChannelMetadata where
  channel : String
  clientSequencer : Int
  rowSequencer : Int
  startOffsetToken : Option String
  endOffsetToken : Option String
  offsetToken : Option String
  deriving Repr, DecidableEq

structure ChunkMetadata where
  database : String
  schema : String
  table : String
  chunkStartOffset : Int
  chunkLength : Int
  chunkLengthUncompressed : Int
  chunkMD5 : String
  encryptionKeyID : Int
  firstInsertTimeInMillis : Int
  lastInsertTimeInMillis : Int
  eps : EpInfo
  channels : List ChannelMetadata
  deriving Repr, DecidableEq

structure BlobMetadata where
  path : String
  md5 : String
  bdecVersion : Nat
  blobStats : BlobStats
  chunks : List ChunkMetadata
  deriving Repr, DecidableEq

structure RegisterBlobRequest where
  requestID : String
  role : String
  blobs : List BlobMetadata
  deriving Repr, DecidableEq

/-- The outbound control-plane requests the client can emit, with a
uniform view of the request identifier each carries.  The batch
channel-status request struct has no request identifier field, so its
view is `none`. -/
inductive OutboundRequest where
  | openChannel (r : OpenChannelRequest)
  | dropChannel (r : DropChannelRequest)
  | registerBlob (r : RegisterBlobRequest)
  | channelStatus (r : BatchChannelStatusRequest)
  deriving Repr, DecidableEq

def OutboundRequest.requestId? : OutboundRequest → Option String
  | .openChannel r => some r.requestID
  | .dropChannel r => some r.requestID
  | .registerBlob r => some r.requestID
  | .channelStatus _ => none

/-! ## Control-plane responses (the fields the client reads) -/
/-- One channel entry of a batch channel-status response. -/
structure ChannelStatusEntry where
  statusCode : Int
  persistedOffsetToken : String
  persistedClientSequencer : Int
  persistedRowSequencer : Int
  deriving Repr, DecidableEq

structure BatchChannelStatusResponse where
  statusCode : Int
  message : String
  channels : List ChannelStatusEntry
  deriving Repr, DecidableEq

/-- Per-channel entry of a register-blob response. -/
structure ChannelRegisterStatus where
  statusCode : Int
  message : String
  clientSequencer : Int
  deriving Repr, DecidableEq

structure ChunkRegisterStatus where
  channels : List ChannelRegisterStatus
  deriving Repr, DecidableEq

structure BlobRegisterStatus where
  chunks : List ChunkRegisterStatus
  deriving Repr, DecidableEq

structure RegisterBlobResponse where
  blobs : List BlobRegisterStatus
  deriving Repr, DecidableEq

/-- Parsed parquet file metadata, as consumed by `InsertRows`
(`metadata.NumRows` and `totalUncompressedSize(metadata)`). -/
structure ParquetMetadata where
  numRows : Int
  totalUncompressedSize : Int
  deriving Repr, DecidableEq

/-! ## Service-client operations -/
/-- `nextRequestID`: `rid := c.requestIDCounter.Add(1)` followed by
`fmt.Sprintf("%s_%d", c.clientPrefix, rid)`.  Returns the formatted id and
the new counter value. -/
def nextRequestID (p : String) (counter : Nat) : String × Nat :=
  (formatRid p (counter + 1), counter + 1)

/-- The open-channel request `OpenChannel` sends (its struct literal),
together with the advanced shared counter. -/
def openChannelRequestOf (p role : String) (counter : Nat)
    (opts : ChannelOptions) : OpenChannelRequest × Nat :=
  let rid := nextRequestID p counter
  ({ requestID := rid.1
     role := role
     channel := opts.name
     database := opts.databaseName
     schema := opts.schemaName
     table := opts.tableName
     writeMode := "CLOUD_STORAGE" }, rid.2)

/-- The drop-channel request `DropChannel` sends, with the advanced
shared counter. -/
def dropChannelRequestOf (p role : String) (counter : Nat)
    (opts : ChannelOptions) : DropChannelRequest × Nat :=
  let rid := nextRequestID p counter
  ({ requestID := rid.1
     role := role
     channel := opts.name
     table := opts.tableName
     database := opts.databaseName
     schema := opts.schemaName }, rid.2)

/-- The batch channel-status request `ChannelStatus` sends.  It carries no
request identifier and leaves the per-entry client sequencer pointer
unset. -/
def channelStatusRequestOf (role : String) (opts : ChannelOptions) :
    BatchChannelStatusRequest :=
  { role := role
    channels := [{ name := opts.name
                   table := opts.tableName
                   database := opts.databaseName
                   schema := opts.schemaName
                   clientSequencer := none }] }

/-- Response handling of `SnowflakeServiceClient.ChannelStatus`: the
transport outcome is `resp` (a transport error or the decoded response).
Mirrors the Go function line by line. -/
def channelStatus (opts : ChannelOptions)
    (resp : Except String BatchChannelStatusResponse) :
    Except String String :=
  match resp with
  | .error e => .error e
  | .ok resp =>
    if resp.statusCode ≠ responseSuccess then
      .error ("unable to status channel " ++ opts.name)
    else if resp.channels.length ≠ 1 then
      .error ("failed to fetch channel " ++ opts.name)
    else
      match resp.channels with
      | channel :: _ =>
        if channel.statusCode ≠ responseSuccess then
          .error ("unable to status channel " ++ opts.name)
        else .ok channel.persistedOffsetToken
      | [] => .error ("failed to fetch channel " ++ opts.name)

/-! ## InsertRows -/
/-- Go `int32(n)` applied to a non-negative `int`: reduction to the signed
32-bit range by wrap-around. -/
def int32Of (n : Int) : Int := (n + 2 ^ 31) % 2 ^ 32 - 2 ^ 31

/-- One distinct error per `return stats, err` site of `InsertRows`. -/
inductive InsertError where
  | transformError (msg : String)
  | writeError (msg : String)
  | metadataError (msg : String)
  | encryptError (msg : String)
  | staleUploader (msg : String)
  | uploadError (msg : String)
  | registerTransportError (msg : String)
  | unexpectedBlobCount (n : Nat)
  | unexpectedChunkCount (n : Nat)
  | unexpectedChannelCount (n : Nat)
  | ingestStatusError (code : Int) (msg : String)
  deriving Repr, DecidableEq

/-- `InsertStats`.  The two durations are in milliseconds, obtained as
differences of the clock readings the environment supplies. -/
structure InsertStats where
  buildTime : Int
  uploadTime : Int
  compressedOutputSize : Nat
  deriving Repr, DecidableEq

/-- Outcomes of every external effect one `InsertRows` call can perform,
in program order.  Pure collaborator primitives (md5, hex) are supplied as
functions; fallible collaborator calls are supplied as their results.
`uploadOutcome i` is the outcome of upload attempt `i` (`none` means the
attempt succeeded, `some e` that it failed with error `e`). -/
structure InsertEnv where
  rowsResult : Except String Unit
  randDraw : Nat
  writeResult : Except String (List Nat)
  metadataResult : Except String ParquetMetadata
  encrypt : List Nat → String → Except String (List Nat)
  md5sum : List Nat → List Nat
  hexEncode : List Nat → String
  md5str : List Nat → String
  epColumns : List (String × Int)
  uploaderErr : Option String
  uploadOutcome : Nat → Option String
  registerResult : Except String RegisterBlobResponse
  startMs : Int
  uploadStartMs : Int
  uploadFinishMs : Int

/-- Modelled from the spec: `padBuffer` is not under src/.  Per spec
sections 4.3 step 5 and 6, the plaintext is padded to a multiple of the
cipher block size. -/
def padBuffer (b : List Nat) (blockSize : Nat) : List Nat :=
  b ++ List.replicate ((blockSize - b.length % blockSize) % blockSize) 0

/-- Semantics of `backoff.Retry` with
`backoff.WithMaxRetries(backoff.NewConstantBackOff(delay), budget)`: run
attempt `i`; on failure, while retry budget remains, sleep `delayMs` and
retry.  Returns the total number of attempts performed, the delays slept,
and the final error (if every attempt failed).  With a budget of `n`
retries, up to `n + 1` attempts run. -/
def retryConstant (op : Nat → Option String) (delayMs : Nat) :
    Nat → Nat → Nat × List Nat × Option String
  | i, budget =>
    match op i, budget with
    | none, _ => (i + 1, [], none)
    | some e, 0 => (i + 1, [], some e)
    | some _, budget + 1 =>
      let r := retryConstant op delayMs (i + 1) budget
      (r.1, delayMs :: r.2.1, r.2.2)

/-- Everything one `InsertRows` call produces: the post-call channel
state, the returned value, the generated blob path (when the call got far
enough to generate one), the number of stage-upload attempts performed,
and the register-blob request sent (when one was sent). -/
structure InsertOutcome where
  state : ChannelState
  result : Except InsertError InsertStats
  blobPath : Option String
  uploadAttempts : Nat
  registerRequest : Option RegisterBlobRequest

/-- Shallow embedding of `SnowflakeIngestionChannel.InsertRows`, statement
by statement.  `s` is the pre-call channel state, `cfg` the channel's
static data, `env` the outcomes of the call's external effects. -/
def insertRows (s : ChannelState) (cfg : ChannelConfig) (env : InsertEnv) :
    InsertOutcome :=
  match env.rowsResult with
  | .error e => ⟨s, .error (.transformError e), none, 0, none⟩
  | .ok _ =>
    let fakeThreadID := (cfg.id <<< 48) ||| env.randDraw
    let pathCounter := s.counter + 1
    let blobPath := generateBlobPath cfg.clientPfx fakeThreadID pathCounter
    let s1 : ChannelState :=
      { s with counter := pathCounter
               fileMetadata := metaSet s.fileMetadata "primaryFileId" (pathBase blobPath) }
    match env.writeResult with
    | .error e => ⟨s1, .error (.writeError e), some blobPath, 0, none⟩
    | .ok unencrypted =>
      match env.metadataResult with
      | .error e => ⟨s1, .error (.metadataError e), some blobPath, 0, none⟩
      | .ok metadata =>
        let unencryptedLen := unencrypted.length
        let padded := padBuffer unencrypted 16
        match env.encrypt padded blobPath with
        | .error e => ⟨s1, .error (.encryptError e), some blobPath, 0, none⟩
        | .ok encrypted =>
          let fileMD5Hash := env.md5sum encrypted
          match env.uploaderErr with
          | some e => ⟨s1, .error (.staleUploader e), some blobPath, 0, none⟩
          | none =>
            let up := retryConstant env.uploadOutcome 1000 0 3
            match up.2.2 with
            | some e => ⟨s1, .error (.uploadError e), some blobPath, up.1, none⟩
            | none =>
              let ridCounter := s1.counter + 1
              let s2 : ChannelState := { s1 with counter := ridCounter }
              let req : RegisterBlobRequest :=
                { requestID := formatRid cfg.clientPfx ridCounter
                  role := cfg.role
                  blobs := [{
                    path := blobPath
                    md5 := env.hexEncode fileMD5Hash
                    bdecVersion := 3
                    blobStats :=
                      { flushStartMs := env.startMs
                        buildDurationMs := env.uploadStartMs - env.startMs
                        uploadDurationMs := env.uploadFinishMs - env.uploadStartMs }
                    chunks := [{
                      database := cfg.databaseName
                      schema := cfg.schemaName
                      table := cfg.tableName
                      chunkStartOffset := 0
                      chunkLength := int32Of unencryptedLen
                      chunkLengthUncompressed := metadata.totalUncompressedSize
                      chunkMD5 := env.md5str (encrypted.take unencryptedLen)
                      encryptionKeyID := cfg.encryptionKeyID
                      firstInsertTimeInMillis := env.startMs
                      lastInsertTimeInMillis := env.startMs
                      eps := { rows := metadata.numRows, columns := env.epColumns }
                      channels := [{
                        channel := cfg.name
                        clientSequencer := s2.clientSequencer
                        rowSequencer := s2.rowSequencer + 1
                        startOffsetToken := none
                        endOffsetToken := none
                        offsetToken := none }] }] }] }
              match env.registerResult with
              | .error e =>
                ⟨s2, .error (.registerTransportError e), some blobPath, up.1, some req⟩
              | .ok resp =>
                match resp.blobs with
                | [status] =>
                  match status.chunks with
                  | [chunk] =>
                    match chunk.channels with
                    | [channel] =>
                      if channel.statusCode ≠ responseSuccess then
                        ⟨s2, .error (.ingestStatusError channel.statusCode
                            (if channel.message = "" then "(no message)" else channel.message)),
                          some blobPath, up.1, some req⟩
                      else
                        ⟨{ s2 with rowSequencer := s2.rowSequencer + 1
                                   clientSequencer := channel.clientSequencer },
                          .ok { buildTime := env.uploadStartMs - env.startMs
                                uploadTime := env.uploadFinishMs - env.uploadStartMs
                                compressedOutputSize := unencryptedLen },
                          some blobPath, up.1, some req⟩
                    | chans =>
                      ⟨s2, .error (.unexpectedChannelCount chans.length),
                        some blobPath, up.1, some req⟩
                  | chunks =>
                    ⟨s2, .error (.unexpectedChunkCount chunks.length),
                      some blobPath, up.1, some req⟩
                | blobs =>
                  ⟨s2, .error (.unexpectedBlobCount blobs.length),
                    some blobPath, up.1, some req⟩

/-! ## WaitUntilCommitted -/
/-- The batch channel-status request `WaitUntilCommitted` sends on each
poll: like `ChannelStatus`'s request (no request identifier), but with the
per-entry client sequencer pointer set to the local value. -/
def waitStatusRequestOf (cfg : ChannelConfig) (s : ChannelState) :
    BatchChannelStatusRequest :=
  { role := cfg.role
    channels := [{ name := cfg.name
                   table := cfg.tableName
                   database := cfg.databaseName
                   schema := cfg.schemaName
                   clientSequencer := some s.clientSequencer }] }

/-- Classification of one poll of the `WaitUntilCommitted` loop body:
commit observed, permanent failure (client sequencer diverged), or a
transient failure handed back to the backoff loop. -/
inductive StepOutcome where
  | done
  | permanent (msg : String)
  | transient (msg : String)
  deriving Repr, DecidableEq

def StepOutcome.isTransient : StepOutcome → Bool
  | .transient _ => true
  | _ => false

def StepOutcome.isDone : StepOutcome → Bool
  | .done => true
  | _ => false

/-- One poll of `WaitUntilCommitted`, mirroring the retry-operation body:
transport errors, non-success batch status and a channel-entry count other
than one are transient; a persisted client sequencer different from the
local one is permanent; a persisted row sequencer below the local one is
transient; otherwise the data is committed. -/
def waitStep (s : ChannelState) :
    Except String BatchChannelStatusResponse → StepOutcome
  | .error e => .transient e
  | .ok resp =>
    if resp.statusCode ≠ responseSuccess then
      .transient ("error fetching channel status" ++
        (if resp.message = "" then "(no message)" else resp.message))
    else if resp.channels.length ≠ 1 then
      .transient "unexpected number of channels for status request"
    else
      match resp.channels with
      | status :: _ =>
        if status.persistedClientSequencer ≠ s.clientSequencer then
          .permanent "unexpected number of channels for status request"
        else if status.persistedRowSequencer < s.rowSequencer then
          .transient "row sequencer not yet committed"
        else .done
      | [] => .transient "unexpected number of channels for status request"

inductive CommitError where
  | permanentErr (msg : String)
  | budgetExhausted
  deriving Repr, DecidableEq

/-- Whether a Go `(value, err)` style result modelled as `Except` is the
success case (`err == nil`). -/
def exceptOk : Except ε α → Bool
  | .ok _ => true
  | .error _ => false

/-- The polling loop of `WaitUntilCommitted` driven by the list of poll
outcomes the environment will deliver; the exponential backoff's elapsed
time budget bounds how many polls can happen, which the model renders as
the list running out.  Returns the number of polls performed and the
call's result (whose success payload is that same poll count). -/
def waitLoop (s : ChannelState) :
    List (Except String BatchChannelStatusResponse) →
      Nat × Except CommitError Nat
  | [] => (0, .error .budgetExhausted)
  | r :: rest =>
    match waitStep s r with
    | .done => (1, .ok 1)
    | .permanent e => (1, .error (.permanentErr e))
    | .transient _ =>
      let t := waitLoop s rest
      (t.1 + 1, t.2.map (fun n => n + 1))

/-- Shallow embedding of `SnowflakeIngestionChannel.WaitUntilCommitted`. -/
def waitUntilCommitted (s : ChannelState)
    (resps : List (Except String BatchChannelStatusResponse)) :
    Nat × Except CommitError Nat :=
  waitLoop s resps

/-- Whether a poll outcome observes a persisted row sequencer at or beyond
the channel's local row sequencer (the reading of "observes" in the spec's
commit-success condition). -/
def observesCommitted (s : ChannelState) :
    Except String BatchChannelStatusResponse → Bool
  | .error _ => false
  | .ok resp => resp.channels.any (fun e => s.rowSequencer ≤ e.persistedRowSequencer)

/-! ## Concrete fixtures used by witnesses and counterexamples -/
def cfg0 : ChannelConfig :=
  { id := 1, name := "ch", databaseName := "db", schemaName := "sc"
    tableName := "tb", role := "ROLE", clientPfx := "p_0", version := "v"
    encryptionKeyID := 11, encryptionKey := "key" }

def st0 : ChannelState :=
  { clientSequencer := 0, rowSequencer := 0, counter := 0, fileMetadata := [] }

def respOK : RegisterBlobResponse :=
  { blobs := [{ chunks := [{ channels := [{ statusCode := 0, message := ""
                                            clientSequencer := 7 }] }] }] }

/-- An environment in which every external effect succeeds. -/
def envOK : InsertEnv :=
  { rowsResult := .ok ()
    randDraw := 5
    writeResult := .ok [1, 2, 3]
    metadataResult := .ok { numRows := 3, totalUncompressedSize := 100 }
    encrypt := fun _ _ => .ok [9, 9, 9, 9]
    md5sum := fun _ => []
    hexEncode := fun _ => "hex"
    md5str := fun _ => "m"
    epColumns := []
    uploaderErr := none
    uploadOutcome := fun _ => none
    registerResult := .ok respOK
    startMs := 0
    uploadStartMs := 1
    uploadFinishMs := 2 }

def envTransformErr : InsertEnv := { envOK with rowsResult := .error "boom" }

def envStale : InsertEnv := { envOK with uploaderErr := some "expired" }

/-- Whether a register-blob response has the expected single-blob,
single-chunk, single-channel shape. -/
def registerShapeOk (resp : RegisterBlobResponse) : Bool :=
  match resp.blobs with
  | [b] =>
    match b.chunks with
    | [c] =>
      match c.channels with
      | [_] => true
      | _ => false
    | _ => false
  | _ => false

def respBadChunks : RegisterBlobResponse := { blobs := [{ chunks := [] }] }

def envBadShape : InsertEnv := { envOK with registerResult := .ok respBadChunks }

/-- A write result two gibibytes long: the serialized parquet length
`2 ^ 31` does not fit a signed 32-bit integer. -/
def env2G : InsertEnv := { envOK with writeResult := .ok (List.replicate (2 ^ 31) 0) }

/-- An environment in which the upload fails on the first three attempts
and succeeds on the fourth. -/
def envUp3 : InsertEnv :=
  { envOK with uploadOutcome := fun i => if i < 3 then some "net" else none }

def opts0 : ChannelOptions :=
  { id := 1, name := "ch", databaseName := "db", schemaName := "sc", tableName := "tb" }

def respStatusOK : BatchChannelStatusResponse :=
  { statusCode := 0, message := ""
    channels := [{ statusCode := 0, persistedOffsetToken := "tok"
                   persistedClientSequencer := 1, persistedRowSequencer := 2 }] }

/-- A channel state that has registered one batch and expects it to be
committed. -/
def stWait : ChannelState :=
  { clientSequencer := 0, rowSequencer := 1, counter := 2, fileMetadata := [] }

/-- A poll whose persisted client sequencer diverges from the local value
while its persisted row sequencer is far beyond the local one. -/
def respDiverged : Except String BatchChannelStatusResponse :=
  .ok { statusCode := 0, message := ""
        channels := [{ statusCode := 0, persistedOffsetToken := ""
                       persistedClientSequencer := 5, persistedRowSequencer := 9 }] }

/-- A poll that observes the batch committed on the expected channel. -/
def respCommitted : Except String BatchChannelStatusResponse :=
  .ok { statusCode := 0, message := ""
        channels := [{ statusCode := 0, persistedOffsetToken := ""
                       persistedClientSequencer := 0, persistedRowSequencer := 1 }] }

theorem decDigitChar_ne_underscore (d : Nat) : decDigitChar d ≠ '_' := by
  unfold decDigitChar
  split <;> try decide
  split <;> try decide
  split <;> try decide
  split <;> try decide
  split <;> try decide
  split <;> try decide
  split <;> try decide
  split <;> try decide
  split <;> decide

theorem decDigitChar_inj_lt :
    ∀ a, a < 10 → ∀ b, b < 10 → decDigitChar a = decDigitChar b → a = b := by
  decide

theorem decDigitsAux_succ (fuel n : Nat) (acc : List Char) :
    decDigitsAux (fuel + 1) n acc =
      if n < 10 then decDigitChar n :: acc
      else decDigitsAux fuel (n / 10) (decDigitChar (n % 10) :: acc) := rfl

theorem decDigitsAux_acc (fuel : Nat) :
    ∀ n acc, decDigitsAux fuel n acc = decDigitsAux fuel n [] ++ acc := by
  induction fuel with
  | zero => intro n acc; simp [decDigitsAux]
  | succ fuel ih =>
    intro n acc
    by_cases h : n < 10
    · simp [decDigitsAux_succ, h]
    · rw [decDigitsAux_succ, decDigitsAux_succ, if_neg h, if_neg h,
        ih (n / 10) (decDigitChar (n % 10) :: acc),
        ih (n / 10) [decDigitChar (n % 10)], List.append_assoc]
      rfl

theorem decDigitsAux_fuel (n : Nat) : ∀ fuel fuel', n < fuel → n < fuel' →
    decDigitsAux fuel n [] = decDigitsAux fuel' n [] := by
  induction n using Nat.strong_induction_on with
  | _ n ih =>
    intro fuel fuel' hf hf'
    match fuel, fuel' with
    | f + 1, f' + 1 =>
      by_cases h : n < 10
      · simp [decDigitsAux_succ, h]
      · rw [decDigitsAux_succ, decDigitsAux_succ, if_neg h, if_neg h,
          decDigitsAux_acc f, decDigitsAux_acc f']
        have hdiv : n / 10 < n := Nat.div_lt_self (by omega) (by omega)
        rw [ih (n / 10) hdiv f f' (by omega) (by omega)]

theorem decDigits_small {n : Nat} (h : n < 10) :
    decDigits n = [decDigitChar n] := by
  simp [decDigits, decDigitsAux_succ, h]

theorem decDigits_step {n : Nat} (h : 10 ≤ n) :
    decDigits n = decDigits (n / 10) ++ [decDigitChar (n % 10)] := by
  have hdiv : n / 10 < n := Nat.div_lt_self (by omega) (by omega)
  show decDigitsAux (n + 1) n [] = _
  rw [decDigitsAux_succ, if_neg (by omega : ¬n < 10), decDigitsAux_acc n,
    decDigitsAux_fuel (n / 10) n (n / 10 + 1) hdiv (by omega)]
  rfl

theorem decDigits_ne_nil (n : Nat) : decDigits n ≠ [] := by
  by_cases h : n < 10
  · rw [decDigits_small h]; simp
  · rw [decDigits_step (by omega)]; simp

theorem decDigits_ne_underscore (n : Nat) : ∀ c ∈ decDigits n, c ≠ '_' := by
  induction n using Nat.strong_induction_on with
  | _ n ih =>
    by_cases h : n < 10
    · rw [decDigits_small h]
      intro c hc
      simp at hc
      exact hc ▸ decDigitChar_ne_underscore n
    · rw [decDigits_step (by omega)]
      intro c hc
      rcases List.mem_append.1 hc with hc | hc
      · exact ih (n / 10) (Nat.div_lt_self (by omega) (by omega)) c hc
      · simp at hc
        exact hc ▸ decDigitChar_ne_underscore (n % 10)

theorem decDigits_inj : ∀ n m, decDigits n = decDigits m → n = m := by
  intro n
  induction n using Nat.strong_induction_on with
  | _ n ih =>
    intro m h
    by_cases hn : n < 10 <;> by_cases hm : m < 10
    · rw [decDigits_small hn, decDigits_small hm] at h
      exact decDigitChar_inj_lt n hn m hm (by simpa using h)
    · exfalso
      rw [decDigits_small hn, decDigits_step (by omega)] at h
      have hlen : (1 : Nat) = (decDigits (m / 10)).length + 1 := by
        simpa using congrArg List.length h
      exact decDigits_ne_nil (m / 10) (List.length_eq_zero.1 (by omega))
    · exfalso
      rw [decDigits_small hm, decDigits_step (by omega)] at h
      have hlen : (decDigits (n / 10)).length + 1 = 1 := by
        simpa using congrArg List.length h
      exact decDigits_ne_nil (n / 10) (List.length_eq_zero.1 (by omega))
    · rw [decDigits_step (by omega : 10 ≤ n), decDigits_step (by omega : 10 ≤ m)] at h
      obtain ⟨h1, h2⟩ := List.append_inj' h (by simp)
      have hdiv : n / 10 = m / 10 :=
        ih (n / 10) (Nat.div_lt_self (by omega) (by omega)) (m / 10) h1
      have hmod : n % 10 = m % 10 :=
        decDigitChar_inj_lt _ (Nat.mod_lt _ (by omega)) _ (Nat.mod_lt _ (by omega))
          (by simpa using h2)
      omega

/-- Splitting a list on a separator absent from the left parts is
unambiguous. -/
theorem append_sep_inj {sep : Char} :
    ∀ (a a' b b' : List Char), sep ∉ a → sep ∉ a' →
      a ++ sep :: b = a' ++ sep :: b' → a = a' ∧ b = b'
  | [], [], _, _, _, _, h => ⟨rfl, by simpa using h⟩
  | [], c :: a', _, _, _, ha', h => by
    simp only [List.nil_append, List.cons_append, List.cons.injEq] at h
    exact absurd (h.1 ▸ List.mem_cons_self c a') ha'
  | c :: a, [], _, _, ha, _, h => by
    simp only [List.nil_append, List.cons_append, List.cons.injEq] at h
    exact absurd (h.1 ▸ List.mem_cons_self c a) ha
  | c :: a, c' :: a', b, b', ha, ha', h => by
    simp only [List.cons_append, List.cons.injEq] at h
    have := append_sep_inj a a' b b' (fun hm => ha (List.mem_cons_of_mem c hm))
      (fun hm => ha' (List.mem_cons_of_mem c' hm)) h.2
    exact ⟨by simp [h.1, this.1], this.2⟩

theorem generateBlobPath_inj_counter {p : String} {t t' k k' : Nat}
    (h : k ≠ k') : generateBlobPath p t k ≠ generateBlobPath p t' k' := by
  intro he
  have hd : p.data ++ '_' :: (decDigits t ++ '_' :: decDigits k)
      = p.data ++ '_' :: (decDigits t' ++ '_' :: decDigits k') :=
    congrArg String.data he
  have h2 := List.append_cancel_left hd
  have h3 : decDigits t ++ '_' :: decDigits k
      = decDigits t' ++ '_' :: decDigits k' := by
    injection h2
  obtain ⟨-, h4⟩ := append_sep_inj _ _ _ _
    (fun hm => decDigits_ne_underscore t '_' hm rfl)
    (fun hm => decDigits_ne_underscore t' '_' hm rfl) h3
  exact h (decDigits_inj _ _ h4)

theorem formatRid_inj {p : String} {n m : Nat} (h : n ≠ m) :
    formatRid p n ≠ formatRid p m := by
  intro he
  have hd : p.data ++ '_' :: decDigits n = p.data ++ '_' :: decDigits m :=
    congrArg String.data he
  have h2 := List.append_cancel_left hd
  have h3 : decDigits n = decDigits m := by injection h2
  exact h (decDigits_inj _ _ h3)

/-! ## Case analysis of InsertRows -/
/-- Every run of `insertRows` either fails and leaves both sequencers at
their pre-call values, or succeeds, in which case the register-blob
response had exactly one blob, chunk and channel entry, that entry's
status was success, the row sequencer advanced by exactly one and the
client sequencer was set to the entry's echoed value. -/
theorem insertRows_cases (s : ChannelState) (cfg : ChannelConfig) (env : InsertEnv) :
    ((∃ e, (insertRows s cfg env).result = .error e) ∧
      (insertRows s cfg env).state.rowSequencer = s.rowSequencer ∧
      (insertRows s cfg env).state.clientSequencer = s.clientSequencer) ∨
    (∃ resp b c chan,
      env.registerResult = .ok resp ∧ resp.blobs = [b] ∧ b.chunks = [c] ∧
      c.channels = [chan] ∧ chan.statusCode = responseSuccess ∧
      (∃ stats, (insertRows s cfg env).result = .ok stats) ∧
      (insertRows s cfg env).state.rowSequencer = s.rowSequencer + 1 ∧
      (insertRows s cfg env).state.clientSequencer = chan.clientSequencer) := by
  obtain ⟨rows, rand, write, meta, enc, m5, hx, m5s, ep, uerr, uout, reg, t1, t2, t3⟩ := env
  simp only [insertRows]
  rcases rows with e | u
  · exact .inl ⟨⟨_, rfl⟩, rfl, rfl⟩
  rcases write with e | bytes
  · exact .inl ⟨⟨_, rfl⟩, rfl, rfl⟩
  rcases meta with e | md
  · exact .inl ⟨⟨_, rfl⟩, rfl, rfl⟩
  dsimp only
  rcases henc : enc (padBuffer bytes 16)
      (generateBlobPath cfg.clientPfx (cfg.id <<< 48 ||| rand) (s.counter + 1)) with e | encdata
  · exact .inl ⟨⟨_, rfl⟩, rfl, rfl⟩
  rcases uerr with _ | e
  case some => exact .inl ⟨⟨_, rfl⟩, rfl, rfl⟩
  rcases hup : (retryConstant uout 1000 0 3).2.2 with _ | e
  case some => exact .inl ⟨⟨_, rfl⟩, rfl, rfl⟩
  rcases reg with e | resp
  · exact .inl ⟨⟨_, rfl⟩, rfl, rfl⟩
  rcases resp with ⟨_ | ⟨b, _ | _⟩⟩
  · exact .inl ⟨⟨_, rfl⟩, rfl, rfl⟩
  case mk.cons.cons => exact .inl ⟨⟨_, rfl⟩, rfl, rfl⟩
  rcases b with ⟨_ | ⟨c, _ | _⟩⟩
  · exact .inl ⟨⟨_, rfl⟩, rfl, rfl⟩
  case mk.cons.cons => exact .inl ⟨⟨_, rfl⟩, rfl, rfl⟩
  rcases c with ⟨_ | ⟨chan, _ | _⟩⟩
  · exact .inl ⟨⟨_, rfl⟩, rfl, rfl⟩
  case mk.cons.cons => exact .inl ⟨⟨_, rfl⟩, rfl, rfl⟩
  by_cases hst : chan.statusCode = responseSuccess
  · exact .inr ⟨_, _, _, chan, rfl, rfl, rfl, rfl, hst,
      ⟨{ buildTime := t2 - t1, uploadTime := t3 - t2
         compressedOutputSize := bytes.length }, by simp [hst]⟩,
      by simp [hst], by simp [hst]⟩
  · exact .inl ⟨⟨.ingestStatusError chan.statusCode
        (if chan.message = "" then "(no message)" else chan.message), by simp [hst]⟩,
      by simp [hst], by simp [hst]⟩

/-! ## Retry helper lemmas -/
theorem retryConstant_fail (op : Nat → Option String) (delay : Nat) :
    ∀ budget i, (∀ j, j ≤ budget → op (i + j) ≠ none) →
      retryConstant op delay i budget =
        (i + budget + 1, List.replicate budget delay, op (i + budget)) := by
  intro budget
  induction budget with
  | zero =>
    intro i h
    rcases hop : op i with _ | e
    · exact absurd (by simpa using hop) (h 0 (le_refl 0))
    · rw [retryConstant.eq_2 op delay i e hop]
      simp [hop]
  | succ b ih =>
    intro i h
    rcases hop : op i with _ | e
    · exact absurd (by simpa using hop) (h 0 (by omega))
    · have hrec := ih (i + 1) (fun j hj => by
        have := h (j + 1) (by omega)
        simpa [Nat.add_assoc, Nat.add_comm 1 j] using this)
      rw [retryConstant.eq_3 op delay i b e hop, hrec]
      refine congrArg₂ Prod.mk (by omega) (congrArg₂ Prod.mk ?_ ?_)
      · simp [List.replicate_succ]
      · have harg : i + 1 + b = i + (b + 1) := by omega
        rw [harg]

theorem retryConstant_firstSuccess (op : Nat → Option String) (delay : Nat) :
    ∀ k budget i, k ≤ budget → op (i + k) = none →
      (∀ j, j < k → op (i + j) ≠ none) →
      retryConstant op delay i budget = (i + k + 1, List.replicate k delay, none) := by
  intro k
  induction k with
  | zero =>
    intro budget i _ hk _
    simp only [Nat.add_zero] at hk
    rw [retryConstant.eq_1 op delay i budget hk]
    simp
  | succ k ih =>
    intro budget i hb hk hfail
    rcases hop : op i with _ | e
    · exact absurd (by simpa using hop) (hfail 0 (by omega))
    · match budget, hb with
      | b + 1, hb =>
        have hrec := ih b (i + 1) (by omega)
          (by have harg : i + 1 + k = i + (k + 1) := by omega
              rw [harg]; exact hk)
          (fun j hj => by
            have := hfail (j + 1) (by omega)
            simpa [Nat.add_assoc, Nat.add_comm 1 j] using this)
        rw [retryConstant.eq_3 op delay i b e hop, hrec]
        refine congrArg₂ Prod.mk (by omega) (congrArg₂ Prod.mk ?_ rfl)
        simp [List.replicate_succ]

/-! ## Claim C1 -/
/-- C1: every `InsertRows` call that returns success advances the local
row sequencer by exactly one from its pre-call value and sets the local
client sequencer to the `ClientSequencer` value echoed back in the
register-blob response's single channel entry — never to a locally
computed value. -/
theorem insertRows_success_advances_sequencers
    (s : ChannelState) (cfg : ChannelConfig) (env : InsertEnv) (stats : InsertStats)
    (h : (insertRows s cfg env).result = .ok stats) :
    ∃ resp b c chan,
      env.registerResult = .ok resp ∧ resp.blobs = [b] ∧ b.chunks = [c] ∧
      c.channels = [chan] ∧
      (insertRows s cfg env).state.rowSequencer = s.rowSequencer + 1 ∧
      (insertRows s cfg env).state.clientSequencer = chan.clientSequencer := by
  rcases insertRows_cases s cfg env with ⟨⟨e, he⟩, -, -⟩ |
    ⟨resp, b, c, chan, h1, h2, h3, h4, -, -, h7, h8⟩
  · rw [h] at he; cases he
  · exact ⟨resp, b, c, chan, h1, h2, h3, h4, h7, h8⟩

theorem insertRows_success_advances_sequencers_witness :
    (insertRows st0 cfg0 envOK).state.rowSequencer = st0.rowSequencer + 1 := by
  obtain ⟨-, -, -, -, -, -, -, -, h, -⟩ :=
    insertRows_success_advances_sequencers st0 cfg0 envOK
      { buildTime := 1, uploadTime := 1, compressedOutputSize := 3 } rfl
  exact h

/-! ## Claim C2 -/
/-- C2: every `InsertRows` call that returns an error — on any error path
(transform, encoding, metadata parse, encryption, stale uploader, upload,
register transport, response shape, or channel ingest status) — leaves
both local sequencers at exactly their pre-call values. -/
theorem insertRows_error_preserves_sequencers
    (s : ChannelState) (cfg : ChannelConfig) (env : InsertEnv) (e : InsertError)
    (h : (insertRows s cfg env).result = .error e) :
    (insertRows s cfg env).state.rowSequencer = s.rowSequencer ∧
    (insertRows s cfg env).state.clientSequencer = s.clientSequencer := by
  rcases insertRows_cases s cfg env with ⟨-, h1, h2⟩ |
    ⟨-, -, -, -, -, -, -, -, -, ⟨stats, hok⟩, -, -⟩
  · exact ⟨h1, h2⟩
  · rw [h] at hok; cases hok

theorem insertRows_error_preserves_sequencers_witness :
    (insertRows st0 cfg0 envTransformErr).state.rowSequencer = st0.rowSequencer ∧
    (insertRows st0 cfg0 envTransformErr).state.clientSequencer = st0.clientSequencer :=
  insertRows_error_preserves_sequencers st0 cfg0 envTransformErr
    (.transformError "boom") rfl

/-! ## Claim C8 -/
/-- C8: when the most recently published uploader state carries an error,
the next `InsertRows` call returns an error, performs zero upload attempts
and sends no register-blob request; and when the transform, encoding,
metadata-parse and encryption steps all succeed, the returned error is
precisely the stale-uploader error wrapping the published one. -/
theorem insertRows_stale_uploader
    (s : ChannelState) (cfg : ChannelConfig) (env : InsertEnv) (e : String)
    (h : env.uploaderErr = some e) :
    (∃ e2, (insertRows s cfg env).result = .error e2) ∧
    (insertRows s cfg env).uploadAttempts = 0 ∧
    (insertRows s cfg env).registerRequest = none ∧
    (∀ bytes md encd, env.rowsResult = .ok () → env.writeResult = .ok bytes →
      env.metadataResult = .ok md →
      env.encrypt (padBuffer bytes 16)
        (generateBlobPath cfg.clientPfx (cfg.id <<< 48 ||| env.randDraw) (s.counter + 1)) =
          .ok encd →
      (insertRows s cfg env).result = .error (.staleUploader e)) := by
  simp only [insertRows]
  rcases hrows : env.rowsResult with e1 | u
  · exact ⟨⟨_, rfl⟩, rfl, rfl, fun bytes md encd h1 _ _ _ => by cases h1⟩
  dsimp only
  rcases hwrite : env.writeResult with e1 | bytes
  · exact ⟨⟨_, rfl⟩, rfl, rfl, fun bytes md encd _ h2 _ _ => by cases h2⟩
  dsimp only
  rcases hmeta : env.metadataResult with e1 | md
  · exact ⟨⟨_, rfl⟩, rfl, rfl, fun bytes md encd _ _ h3 _ => by cases h3⟩
  dsimp only
  rcases henc : env.encrypt (padBuffer bytes 16)
      (generateBlobPath cfg.clientPfx (cfg.id <<< 48 ||| env.randDraw) (s.counter + 1))
    with e1 | encdata
  · refine ⟨⟨_, rfl⟩, rfl, rfl, fun bytes2 md2 encd h1 h2 h3 h4 => ?_⟩
    injection h2 with h2
    subst h2
    rw [henc] at h4
    cases h4
  dsimp only
  rw [h]
  exact ⟨⟨_, rfl⟩, rfl, rfl, fun _ _ _ _ _ _ _ => rfl⟩

theorem insertRows_stale_uploader_witness :
    (insertRows st0 cfg0 envStale).uploadAttempts = 0 ∧
    (insertRows st0 cfg0 envStale).result = .error (.staleUploader "expired") := by
  obtain ⟨-, h2, -, h4⟩ := insertRows_stale_uploader st0 cfg0 envStale "expired" rfl
  exact ⟨h2, h4 [1, 2, 3] { numRows := 3, totalUncompressedSize := 100 } [9, 9, 9, 9]
    rfl rfl rfl rfl⟩

/-! ## Claim C6 -/
/-- C6: a register-blob response whose shape is wrong — number of blobs,
of chunks in the blob, or of channels in the chunk different from exactly
one — makes `InsertRows` return the corresponding protocol-shape error
(an `InsertRows` call sends at most one register-blob request, so the
registration is never retried), and both local sequencers keep their
pre-call values. -/
theorem insertRows_register_shape_mismatch
    (s : ChannelState) (cfg : ChannelConfig) (env : InsertEnv)
    (resp : RegisterBlobResponse)
    (hreq : (insertRows s cfg env).registerRequest ≠ none)
    (hresp : env.registerResult = .ok resp)
    (hshape : registerShapeOk resp = false) :
    (∃ n, n ≠ 1 ∧
      ((insertRows s cfg env).result = .error (.unexpectedBlobCount n) ∨
       (insertRows s cfg env).result = .error (.unexpectedChunkCount n) ∨
       (insertRows s cfg env).result = .error (.unexpectedChannelCount n))) ∧
    (insertRows s cfg env).state.rowSequencer = s.rowSequencer ∧
    (insertRows s cfg env).state.clientSequencer = s.clientSequencer := by
  simp only [insertRows] at hreq ⊢
  rcases hrows : env.rowsResult with e1 | u <;> rw [hrows] at hreq
  · exact absurd rfl hreq
  dsimp only at hreq ⊢
  rcases hwrite : env.writeResult with e1 | bytes <;> rw [hwrite] at hreq
  · exact absurd rfl hreq
  dsimp only at hreq ⊢
  rcases hmeta : env.metadataResult with e1 | md <;> rw [hmeta] at hreq
  · exact absurd rfl hreq
  dsimp only at hreq ⊢
  rcases henc : env.encrypt (padBuffer bytes 16)
      (generateBlobPath cfg.clientPfx (cfg.id <<< 48 ||| env.randDraw) (s.counter + 1))
    with e1 | encdata <;> rw [henc] at hreq
  · exact absurd rfl hreq
  dsimp only at hreq ⊢
  rcases huerr : env.uploaderErr with _ | e1 <;> rw [huerr] at hreq
  case some => exact absurd rfl hreq
  dsimp only at hreq ⊢
  rcases hup : (retryConstant env.uploadOutcome 1000 0 3).2.2 with _ | e1 <;>
    rw [hup] at hreq
  case some => exact absurd rfl hreq
  dsimp only at hreq ⊢
  rw [hresp] at hreq ⊢
  rcases resp with ⟨_ | ⟨b, _ | ⟨b2, brest⟩⟩⟩
  · exact ⟨⟨0, by omega, .inl rfl⟩, rfl, rfl⟩
  · rcases b with ⟨_ | ⟨c, _ | ⟨c2, crest⟩⟩⟩
    · exact ⟨⟨0, by omega, .inr (.inl rfl)⟩, rfl, rfl⟩
    · rcases c with ⟨_ | ⟨chan, _ | ⟨chan2, chrest⟩⟩⟩
      · exact ⟨⟨0, by omega, .inr (.inr rfl)⟩, rfl, rfl⟩
      · simp [registerShapeOk] at hshape
      · exact ⟨⟨chrest.length + 2, by omega, .inr (.inr rfl)⟩, rfl, rfl⟩
    · exact ⟨⟨crest.length + 2, by omega, .inr (.inl rfl)⟩, rfl, rfl⟩
  · exact ⟨⟨brest.length + 2, by omega, .inl rfl⟩, rfl, rfl⟩

theorem insertRows_register_shape_mismatch_witness :
    (insertRows st0 cfg0 envBadShape).state.rowSequencer = st0.rowSequencer ∧
    (insertRows st0 cfg0 envBadShape).state.clientSequencer = st0.clientSequencer :=
  (insertRows_register_shape_mismatch st0 cfg0 envBadShape respBadChunks
    (by decide) rfl rfl).2

/-! ## Claim C10 -/
theorem int32Of_eq_self {n : Int} (h0 : 0 ≤ n) (h : n < 2 ^ 31) :
    int32Of n = n := by
  unfold int32Of
  rw [Int.emod_eq_of_lt (by omega) (by omega)]
  omega

/-- C10 (amended): every successful `InsertRows` call reports as
`CompressedOutputSize` the byte length of the serialized parquet file
before padding and before encryption, and reports as the single chunk's
`ChunkLength` that same length reduced to a signed 32-bit value — which
coincides with the length itself whenever it is below 2^31. -/
theorem insertRows_compressed_size
    (s : ChannelState) (cfg : ChannelConfig) (env : InsertEnv) (stats : InsertStats)
    (h : (insertRows s cfg env).result = .ok stats) :
    ∃ bytes req blob chunk,
      env.writeResult = .ok bytes ∧
      (insertRows s cfg env).registerRequest = some req ∧
      req.blobs = [blob] ∧ blob.chunks = [chunk] ∧
      stats.compressedOutputSize = bytes.length ∧
      chunk.chunkLength = int32Of bytes.length ∧
      (bytes.length < 2 ^ 31 → chunk.chunkLength = (bytes.length : Int)) := by
  simp only [insertRows] at h ⊢
  rcases hrows : env.rowsResult with e1 | u <;> rw [hrows] at h
  · exact Except.noConfusion h
  dsimp only at h ⊢
  rcases hwrite : env.writeResult with e1 | bytes <;> rw [hwrite] at h
  · exact Except.noConfusion h
  dsimp only at h ⊢
  rcases hmeta : env.metadataResult with e1 | md <;> rw [hmeta] at h
  · exact Except.noConfusion h
  dsimp only at h ⊢
  rcases henc : env.encrypt (padBuffer bytes 16)
      (generateBlobPath cfg.clientPfx (cfg.id <<< 48 ||| env.randDraw) (s.counter + 1))
    with e1 | encdata <;> rw [henc] at h
  · exact Except.noConfusion h
  dsimp only at h ⊢
  rcases huerr : env.uploaderErr with _ | e1 <;> rw [huerr] at h
  case some => exact Except.noConfusion h
  dsimp only at h ⊢
  rcases hup : (retryConstant env.uploadOutcome 1000 0 3).2.2 with _ | e1 <;>
    rw [hup] at h
  case some => exact Except.noConfusion h
  dsimp only at h ⊢
  rcases hreg : env.registerResult with e1 | resp <;> rw [hreg] at h
  · exact Except.noConfusion h
  rcases resp with ⟨_ | ⟨b, _ | ⟨b2, brest⟩⟩⟩
  · exact Except.noConfusion h
  case mk.cons.cons => exact Except.noConfusion h
  rcases b with ⟨_ | ⟨c, _ | ⟨c2, crest⟩⟩⟩
  · exact Except.noConfusion h
  case mk.cons.cons => exact Except.noConfusion h
  rcases c with ⟨_ | ⟨chan, _ | ⟨chan2, chrest⟩⟩⟩
  · exact Except.noConfusion h
  case mk.cons.cons => exact Except.noConfusion h
  dsimp only at h ⊢
  by_cases hst : chan.statusCode = responseSuccess
  · rw [if_neg (by simpa using hst)] at h ⊢
    injection h with h
    subst h
    exact ⟨bytes, _, _, _, rfl, rfl, rfl, rfl, rfl, rfl,
      fun hlt => int32Of_eq_self (by positivity) (by exact_mod_cast hlt)⟩
  · rw [if_pos (by simpa using hst)] at h
    exact Except.noConfusion h

theorem insertRows_compressed_size_witness :
    ∃ bytes req blob chunk,
      envOK.writeResult = .ok bytes ∧
      (insertRows st0 cfg0 envOK).registerRequest = some req ∧
      req.blobs = [blob] ∧ blob.chunks = [chunk] ∧
      ({ buildTime := 1, uploadTime := 1, compressedOutputSize := 3 } :
        InsertStats).compressedOutputSize = bytes.length ∧
      chunk.chunkLength = int32Of bytes.length ∧
      (bytes.length < 2 ^ 31 → chunk.chunkLength = (bytes.length : Int)) :=
  insertRows_compressed_size st0 cfg0 envOK _ rfl

theorem chunkLength_wrap_counterexample :
    (insertRows st0 cfg0 env2G).result =
      .ok { buildTime := 1, uploadTime := 1, compressedOutputSize := 2 ^ 31 } ∧
    ((insertRows st0 cfg0 env2G).registerRequest.map
      (fun r => r.blobs.map fun b => b.chunks.map fun c => c.chunkLength)) =
      some [[-(2 ^ 31)]] ∧
    (-(2 ^ 31) : Int) ≠ (2 ^ 31 : Int) := by
  have hlen : (List.replicate (2 ^ 31) (0 : Nat)).length = 2 ^ 31 :=
    List.length_replicate _ _
  refine ⟨?_, ?_, by decide⟩ <;>
    simp only [insertRows, env2G, envOK, st0, cfg0, retryConstant, respOK,
      responseSuccess, hlen] <;>
    norm_num [int32Of, Option.map, List.map]

/-! ## Claim C5 -/
/-- C5 (amended): the stage upload inside `InsertRows` runs under a
constant-delay retry policy of one second with three retries, that is up
to FOUR attempts in total (one initial attempt plus three retries): when
every step before the upload succeeds, a call whose upload fails on all
four attempts returns the final upload error after exactly four attempts,
sleeping one second before each retry, without sending a register-blob
request; and a call whose first upload success is attempt `k + 1` (for
`k ≤ 3`) stops retrying there and proceeds to registration. -/
theorem insertRows_upload_retry
    (s : ChannelState) (cfg : ChannelConfig) (env : InsertEnv)
    (bytes : List Nat) (md : ParquetMetadata) (encd : List Nat)
    (h1 : env.rowsResult = .ok ()) (h2 : env.writeResult = .ok bytes)
    (h3 : env.metadataResult = .ok md)
    (h4 : env.encrypt (padBuffer bytes 16)
      (generateBlobPath cfg.clientPfx (cfg.id <<< 48 ||| env.randDraw) (s.counter + 1)) =
        .ok encd)
    (h5 : env.uploaderErr = none) :
    ((∀ j, j ≤ 3 → env.uploadOutcome j ≠ none) →
      (insertRows s cfg env).uploadAttempts = 4 ∧
      (retryConstant env.uploadOutcome 1000 0 3).2.1 = List.replicate 3 1000 ∧
      (∃ e, env.uploadOutcome 3 = some e ∧
        (insertRows s cfg env).result = .error (.uploadError e)) ∧
      (insertRows s cfg env).registerRequest = none) ∧
    (∀ k, k ≤ 3 → env.uploadOutcome k = none →
      (∀ j, j < k → env.uploadOutcome j ≠ none) →
      (insertRows s cfg env).uploadAttempts = k + 1 ∧
      (retryConstant env.uploadOutcome 1000 0 3).2.1 = List.replicate k 1000 ∧
      (insertRows s cfg env).registerRequest ≠ none) := by
  simp only [insertRows, h1, h2, h3, h4, h5]
  constructor
  · intro hfail
    have hall := retryConstant_fail env.uploadOutcome 1000 3 0
      (fun j hj => by simpa using hfail j hj)
    rcases hout : env.uploadOutcome 3 with _ | e
    · exact absurd hout (hfail 3 (by omega))
    · rw [show (0 : Nat) + 3 = 3 from rfl] at hall
      rw [hout] at hall
      simp only [hall]
      exact ⟨by simp, by simp, ⟨e, rfl, by simp⟩, by simp⟩
  · intro k hk hsucc hprev
    have hfs := retryConstant_firstSuccess env.uploadOutcome 1000 k 3 0 hk
      (by simpa using hsucc) (fun j hj => by simpa using hprev j hj)
    rw [show (0 : Nat) + k = k from by omega] at hfs
    simp only [hfs]
    refine ⟨?_, by simp [hfs], ?_⟩ <;>
      rcases env.registerResult with e1 | ⟨_ | ⟨⟨_ | ⟨⟨_ | ⟨chan, _ | _⟩⟩, _ | _⟩⟩, _ | _⟩⟩ <;>
      first
        | (simp; done)
        | (dsimp only; split <;> simp)

theorem upload_retry_claim_counterexample :
    (envUp3.uploadOutcome 0).isSome = true ∧
    (envUp3.uploadOutcome 1).isSome = true ∧
    (envUp3.uploadOutcome 2).isSome = true ∧
    exceptOk (insertRows st0 cfg0 envUp3).result = true ∧
    (insertRows st0 cfg0 envUp3).uploadAttempts = 4 ∧
    (insertRows st0 cfg0 envUp3).registerRequest ≠ none := by decide

theorem insertRows_upload_retry_witness :
    (insertRows st0 cfg0 envUp3).uploadAttempts = 3 + 1 ∧
    (retryConstant envUp3.uploadOutcome 1000 0 3).2.1 = List.replicate 3 1000 ∧
    (insertRows st0 cfg0 envUp3).registerRequest ≠ none :=
  (insertRows_upload_retry st0 cfg0 envUp3 [1, 2, 3]
      { numRows := 3, totalUncompressedSize := 100 } [9, 9, 9, 9]
      rfl rfl rfl rfl rfl).2 3 (le_refl 3) (by decide) (fun j hj => by
    interval_cases j <;> decide)

/-! ## Claim C4 -/
/-- Inside one `InsertRows` call, the generated blob path (when the call
gets far enough to generate one) is built from the client prefix, the
channel-id-plus-random thread id and the freshly drawn value of the
shared counter, and the post-call counter never falls back below that
drawn value. -/
theorem insertRows_blobPath_eq
    (s : ChannelState) (cfg : ChannelConfig) (env : InsertEnv) (p : String)
    (h : (insertRows s cfg env).blobPath = some p) :
    p = generateBlobPath cfg.clientPfx (cfg.id <<< 48 ||| env.randDraw) (s.counter + 1) ∧
    s.counter + 1 ≤ (insertRows s cfg env).state.counter := by
  simp only [insertRows] at h ⊢
  rcases hrows : env.rowsResult with e1 | u <;> rw [hrows] at h
  · exact Option.noConfusion h
  dsimp only at h ⊢
  rcases hwrite : env.writeResult with e1 | bytes <;> rw [hwrite] at h
  · exact ⟨by injection h with h; exact h.symm, le_refl _⟩
  dsimp only at h ⊢
  rcases hmeta : env.metadataResult with e1 | md <;> rw [hmeta] at h
  · exact ⟨by injection h with h; exact h.symm, le_refl _⟩
  dsimp only at h ⊢
  rcases henc : env.encrypt (padBuffer bytes 16)
      (generateBlobPath cfg.clientPfx (cfg.id <<< 48 ||| env.randDraw) (s.counter + 1))
    with e1 | encdata <;> rw [henc] at h
  · exact ⟨by injection h with h; exact h.symm, le_refl _⟩
  dsimp only at h ⊢
  rcases huerr : env.uploaderErr with _ | e1 <;> rw [huerr] at h
  case some => exact ⟨by injection h with h; exact h.symm, le_refl _⟩
  dsimp only at h ⊢
  rcases hup : (retryConstant env.uploadOutcome 1000 0 3).2.2 with _ | e1 <;>
    rw [hup] at h
  case some => exact ⟨by injection h with h; exact h.symm, le_refl _⟩
  dsimp only at h ⊢
  rcases hreg : env.registerResult with e1 | resp <;> rw [hreg] at h
  · exact ⟨by injection h with h; exact h.symm, by (try dsimp only); omega⟩
  rcases resp with ⟨_ | ⟨b, _ | ⟨b2, brest⟩⟩⟩
  · exact ⟨by injection h with h; exact h.symm, by (try dsimp only); omega⟩
  case mk.cons.cons => exact ⟨by injection h with h; exact h.symm, by (try dsimp only); omega⟩
  rcases b with ⟨_ | ⟨c, _ | ⟨c2, crest⟩⟩⟩
  · exact ⟨by injection h with h; exact h.symm, by (try dsimp only); omega⟩
  case mk.cons.cons => exact ⟨by injection h with h; exact h.symm, by (try dsimp only); omega⟩
  rcases c with ⟨_ | ⟨chan, _ | ⟨chan2, chrest⟩⟩⟩
  · exact ⟨by injection h with h; exact h.symm, by (try dsimp only); omega⟩
  case mk.cons.cons => exact ⟨by injection h with h; exact h.symm, by (try dsimp only); omega⟩
  dsimp only at h ⊢
  by_cases hst : chan.statusCode = responseSuccess
  · rw [if_neg (by simpa using hst)] at h ⊢
    exact ⟨by injection h with h; exact h.symm, by (try dsimp only); omega⟩
  · rw [if_pos (by simpa using hst)] at h ⊢
    exact ⟨by injection h with h; exact h.symm, by (try dsimp only); omega⟩

/-- C4: two distinct `InsertRows` calls that both generate a blob path —
on one channel or on two channels opened from the same client, which
therefore share one request-id counter, including channels with distinct
channel ids — never generate the same path, whatever the random draws.
The counter hypothesis states that the second call starts no earlier in
the shared counter's history than the first call's end, which the shared
atomic counter guarantees for any serialization of two distinct calls. -/
theorem insertRows_blobPath_unique
    (s1 s2 : ChannelState) (cfg1 cfg2 : ChannelConfig) (env1 env2 : InsertEnv)
    (p1 p2 : String)
    (hpfx : cfg1.clientPfx = cfg2.clientPfx)
    (hctr : (insertRows s1 cfg1 env1).state.counter ≤ s2.counter)
    (hp1 : (insertRows s1 cfg1 env1).blobPath = some p1)
    (hp2 : (insertRows s2 cfg2 env2).blobPath = some p2) :
    p1 ≠ p2 := by
  obtain ⟨he1, hc1⟩ := insertRows_blobPath_eq s1 cfg1 env1 p1 hp1
  obtain ⟨he2, -⟩ := insertRows_blobPath_eq s2 cfg2 env2 p2 hp2
  rw [he1, he2, ← hpfx]
  exact generateBlobPath_inj_counter (by omega)

theorem insertRows_blobPath_unique_witness :
    generateBlobPath "p_0" (1 <<< 48 ||| 5) 1 ≠ generateBlobPath "p_0" (1 <<< 48 ||| 5) 3 :=
  insertRows_blobPath_unique st0 (insertRows st0 cfg0 envOK).state cfg0 cfg0
    envOK envOK _ _ rfl (le_refl _) rfl rfl

/-! ## Claim C9 -/
/-- The register-blob request an `InsertRows` call sends (when it sends
one) carries the request id formed from the client prefix and the second
draw of the shared counter (the first draw named the blob path). -/
theorem insertRows_registerRequest_id
    (s : ChannelState) (cfg : ChannelConfig) (env : InsertEnv)
    (req : RegisterBlobRequest)
    (h : (insertRows s cfg env).registerRequest = some req) :
    req.requestID = formatRid cfg.clientPfx (s.counter + 2) := by
  simp only [insertRows] at h
  rcases hrows : env.rowsResult with e1 | u <;> rw [hrows] at h
  · exact Option.noConfusion h
  dsimp only at h
  rcases hwrite : env.writeResult with e1 | bytes <;> rw [hwrite] at h
  · exact Option.noConfusion h
  dsimp only at h
  rcases hmeta : env.metadataResult with e1 | md <;> rw [hmeta] at h
  · exact Option.noConfusion h
  dsimp only at h
  rcases henc : env.encrypt (padBuffer bytes 16)
      (generateBlobPath cfg.clientPfx (cfg.id <<< 48 ||| env.randDraw) (s.counter + 1))
    with e1 | encdata <;> rw [henc] at h
  · exact Option.noConfusion h
  dsimp only at h
  rcases huerr : env.uploaderErr with _ | e1 <;> rw [huerr] at h
  case some => exact Option.noConfusion h
  dsimp only at h
  rcases hup : (retryConstant env.uploadOutcome 1000 0 3).2.2 with _ | e1 <;>
    rw [hup] at h
  case some => exact Option.noConfusion h
  dsimp only at h
  rcases hreg : env.registerResult with e1 | resp <;> rw [hreg] at h
  · injection h with h; subst h; rfl
  rcases resp with ⟨_ | ⟨b, _ | ⟨b2, brest⟩⟩⟩
  · injection h with h; subst h; rfl
  case mk.cons.cons => injection h with h; subst h; rfl
  rcases b with ⟨_ | ⟨c, _ | ⟨c2, crest⟩⟩⟩
  · injection h with h; subst h; rfl
  case mk.cons.cons => injection h with h; subst h; rfl
  rcases c with ⟨_ | ⟨chan, _ | ⟨chan2, chrest⟩⟩⟩
  · injection h with h; subst h; rfl
  case mk.cons.cons => injection h with h; subst h; rfl
  dsimp only at h
  by_cases hst : chan.statusCode = responseSuccess
  · rw [if_neg (by simpa using hst)] at h
    injection h with h; subst h; rfl
  · rw [if_pos (by simpa using hst)] at h
    injection h with h; subst h; rfl

/-- C9 (amended): the open-channel, drop-channel and register-blob
requests each carry a request identifier formed by concatenating the
client prefix with a freshly drawn value of the shared counter, and
distinct draws give distinct identifiers, so no two of those requests of
one client collide; the batch channel-status request, however, carries no
request identifier at all. -/
theorem request_ids_fresh :
    (∀ p role counter opts,
      (openChannelRequestOf p role counter opts).1.requestID = formatRid p (counter + 1) ∧
      (openChannelRequestOf p role counter opts).2 = counter + 1) ∧
    (∀ p role counter opts,
      (dropChannelRequestOf p role counter opts).1.requestID = formatRid p (counter + 1) ∧
      (dropChannelRequestOf p role counter opts).2 = counter + 1) ∧
    (∀ s cfg env req, (insertRows s cfg env).registerRequest = some req →
      req.requestID = formatRid cfg.clientPfx (s.counter + 2)) ∧
    (∀ role opts,
      (OutboundRequest.channelStatus (channelStatusRequestOf role opts)).requestId? = none) ∧
    (∀ p n m, n ≠ m → formatRid p n ≠ formatRid p m) :=
  ⟨fun _ _ _ _ => ⟨rfl, rfl⟩,
   fun _ _ _ _ => ⟨rfl, rfl⟩,
   insertRows_registerRequest_id,
   fun _ _ => rfl,
   fun _ _ _ h => formatRid_inj h⟩

/-- C9 counterexample: the batch channel-status request the client builds
carries no request identifier at all, contradicting the claim that every
outbound control request (including `channelStatus`) carries one. -/
theorem channelStatus_request_no_id :
    (OutboundRequest.channelStatus (channelStatusRequestOf "ROLE" opts0)).requestId? = none := rfl

theorem request_ids_fresh_witness :
    formatRid "p_0" 1 ≠ formatRid "p_0" 2 :=
  request_ids_fresh.2.2.2.2 "p_0" 1 2 (by omega)

/-! ## Claim C7 -/
/-- C7: `ChannelStatus` returns an error whenever the remote batch-status
response does not contain exactly one channel entry, and returns an offset
token only when the batch status is success, the response has exactly one
entry, and that entry's own status is success — in which case the token is
that entry's persisted offset token. -/
theorem channelStatus_spec (opts : ChannelOptions)
    (resp : Except String BatchChannelStatusResponse) :
    (∀ r, resp = .ok r → r.channels.length ≠ 1 →
      ∃ e, channelStatus opts resp = .error e) ∧
    (∀ tok, channelStatus opts resp = .ok tok →
      ∃ r entry, resp = .ok r ∧ r.statusCode = responseSuccess ∧
        r.channels = [entry] ∧ entry.statusCode = responseSuccess ∧
        tok = entry.persistedOffsetToken) := by
  rcases resp with e | r
  · exact ⟨fun r h => Except.noConfusion h, fun tok h => Except.noConfusion h⟩
  constructor
  · intro r2 h hlen
    injection h with h
    subst h
    by_cases hsc : r.statusCode = responseSuccess
    · exact ⟨"failed to fetch channel " ++ opts.name,
        by simp [channelStatus, hsc, hlen]⟩
    · exact ⟨"unable to status channel " ++ opts.name,
        by simp [channelStatus, hsc]⟩
  · intro tok h
    simp only [channelStatus] at h
    by_cases hsc : r.statusCode = responseSuccess
    · rw [if_neg (by simpa using hsc)] at h
      by_cases hlen : r.channels.length = 1
      · rw [if_neg (by simpa using hlen)] at h
        rcases hch : r.channels with _ | ⟨entry, rest⟩
        · rw [hch] at hlen; simp at hlen
        rcases rest with _ | ⟨e2, rest2⟩
        · rw [hch] at h
          dsimp only at h
          by_cases hes : entry.statusCode = responseSuccess
          · rw [if_neg (by simpa using hes)] at h
            injection h with h
            exact ⟨r, entry, rfl, hsc, hch, hes, h.symm⟩
          · rw [if_pos (by simpa using hes)] at h
            exact Except.noConfusion h
        · rw [hch] at hlen; simp at hlen
      · rw [if_pos (by simpa using hlen)] at h
        exact Except.noConfusion h
    · rw [if_pos (by simpa using hsc)] at h
      exact Except.noConfusion h

theorem channelStatus_spec_witness :
    ∃ r entry, (.ok respStatusOK : Except String BatchChannelStatusResponse) = .ok r ∧
      r.statusCode = responseSuccess ∧ r.channels = [entry] ∧
      entry.statusCode = responseSuccess ∧ "tok" = entry.persistedOffsetToken :=
  (channelStatus_spec opts0 (.ok respStatusOK)).2 "tok" rfl

/-! ## Claim C3 -/
theorem waitLoop_done_char (s : ChannelState) :
    ∀ resps : List (Except String BatchChannelStatusResponse),
      exceptOk (waitLoop s resps).2 = true ↔
      ∃ pre r post, resps = pre ++ r :: post ∧
        (∀ x ∈ pre, (waitStep s x).isTransient = true) ∧
        waitStep s r = .done := by
  intro resps
  induction resps with
  | nil =>
    simp only [waitLoop, exceptOk]
    constructor
    · intro h; cases h
    · rintro ⟨pre, r, post, h, -, -⟩
      exact absurd h (by simp)
  | cons r rest ih =>
    rcases hs : waitStep s r with _ | e | e
    · simp only [waitLoop, hs]
      constructor
      · intro _
        exact ⟨[], r, rest, rfl, by simp, hs⟩
      · intro _; rfl
    · simp only [waitLoop, hs]
      constructor
      · intro h; cases h
      · rintro ⟨pre, r2, post, hdec, htrans, hdone⟩
        rcases pre with _ | ⟨x, pre⟩
        · simp only [List.nil_append, List.cons.injEq] at hdec
          rw [hdec.1] at hs
          rw [hs] at hdone
          cases hdone
        · simp only [List.cons_append, List.cons.injEq] at hdec
          have hx := htrans x (List.mem_cons_self x pre)
          rw [hdec.1] at hs
          rw [hs] at hx
          cases hx
    · have hmap : exceptOk ((waitLoop s rest).2.map (fun n => n + 1)) =
          exceptOk (waitLoop s rest).2 := by
        rcases (waitLoop s rest).2 with e2 | v <;> rfl
      simp only [waitLoop, hs, hmap, ih]
      constructor
      · rintro ⟨pre, r2, post, hdec, htrans, hdone⟩
        refine ⟨r :: pre, r2, post, by rw [hdec]; rfl, ?_, hdone⟩
        intro x hx
        rcases List.mem_cons.1 hx with hx | hx
        · rw [hx, hs]; rfl
        · exact htrans x hx
      · rintro ⟨pre, r2, post, hdec, htrans, hdone⟩
        rcases pre with _ | ⟨x, pre⟩
        · simp only [List.nil_append, List.cons.injEq] at hdec
          rw [hdec.1] at hs
          rw [hs] at hdone
          cases hdone
        · simp only [List.cons_append, List.cons.injEq] at hdec
          exact ⟨pre, r2, post, hdec.2,
            fun y hy => htrans y (List.mem_cons_of_mem x hy), hdone⟩

theorem waitLoop_permanent_stops (s : ChannelState) (r : Except String BatchChannelStatusResponse)
    (e : String) (hperm : waitStep s r = .permanent e) :
    ∀ pre post, (∀ x ∈ pre, (waitStep s x).isTransient = true) →
      waitLoop s (pre ++ r :: post) = (pre.length + 1, .error (.permanentErr e)) := by
  intro pre
  induction pre with
  | nil =>
    intro post _
    simp [waitLoop, hperm]
  | cons x pre ih =>
    intro post htrans
    have hx := htrans x (List.mem_cons_self x pre)
    rcases hsx : waitStep s x with _ | e2 | e2 <;> rw [hsx] at hx
    · cases hx
    · cases hx
    · have hrec := ih post (fun y hy => htrans y (List.mem_cons_of_mem x hy))
      simp [waitLoop, hsx, hrec, Except.map]

/-- C3 (amended): `WaitUntilCommitted` returns success exactly when some
poll — after only transient outcomes — observes a successful single-entry
status whose persisted client sequencer equals the local one and whose
persisted row sequencer is at least the local one (`waitStep` returns
`done`); and the first poll that observes a diverging persisted client
sequencer after only transient outcomes makes the call return a permanent
error immediately, performing no further polls. -/
theorem waitUntilCommitted_spec (s : ChannelState)
    (resps : List (Except String BatchChannelStatusResponse)) :
    (exceptOk (waitUntilCommitted s resps).2 = true ↔
      ∃ pre r post, resps = pre ++ r :: post ∧
        (∀ x ∈ pre, (waitStep s x).isTransient = true) ∧
        waitStep s r = .done) ∧
    (∀ pre r post e, resps = pre ++ r :: post →
      (∀ x ∈ pre, (waitStep s x).isTransient = true) →
      waitStep s r = .permanent e →
      waitUntilCommitted s resps = (pre.length + 1, .error (.permanentErr e))) :=
  ⟨waitLoop_done_char s resps,
   fun pre r post e hdec htrans hperm => by
     rw [hdec]
     exact waitLoop_permanent_stops s r e hperm pre post htrans⟩

/-- C3 counterexample: on a poll whose response carries a persisted row
sequencer at or above the local one but a diverging persisted client
sequencer, `WaitUntilCommitted` returns an error even though that poll
observed a committed row sequencer — so "success iff some poll observes
persisted row sequencer at or above the local one" is false as stated. -/
theorem waitUntilCommitted_claim_counterexample :
    ¬ ((exceptOk (waitUntilCommitted stWait [respDiverged]).2 = true) ↔
       ∃ r ∈ [respDiverged], observesCommitted stWait r = true) := by decide

theorem waitUntilCommitted_spec_witness :
    exceptOk (waitUntilCommitted stWait [respCommitted]).2 = true :=
  (waitUntilCommitted_spec stWait [respCommitted]).1.mpr
    ⟨[], respCommitted, [], rfl, by simp, by decide⟩

end Streaming

